import Mathlib

/-!
Shallow embedding of the shifttracker repository (src/shifttracker/main.py and
src/shifttracker/manager.py): the shift record lifecycle — date/time parsing,
duration derivation, user registration, and the whole-table read/rewrite store.

Tables are modelled as Lean lists of rows (the CSV file contents in order);
Python `int()`, `str.split(":")`, `datetime.date`, `datetime.time`,
`datetime.combine` subtraction and `timedelta.seconds` are embedded explicitly.
-/

namespace ShiftTracker

/-- Value of a list of decimal digit characters, most significant first. -/
def digitsToNat (s : List Char) : Nat :=
  s.foldl (fun n c => n * 10 + (c.toNat - 48)) 0

/-- Characters stripped by Python `int()` around the number. -/
def isPySpace (c : Char) : Bool :=
  c = ' ' ∨ c = '\t' ∨ c = '\n' ∨ c = '\r' ∨ c = '\x0b' ∨ c = '\x0c'

/-- Digit groups separated by single underscores, as Python `int()` accepts
(`"1_0"` is 10; a leading, trailing or doubled underscore is an error).
Returns the digits with underscores removed, or an error. -/
def digitBody : List Char → Except Unit (List Char)
  | [] => .error ()
  | [c] => if c.isDigit then .ok [c] else .error ()
  | c :: c2 :: rest =>
      if c.isDigit then
        if c2 = '_' then
          match digitBody rest with
          | .ok ds => .ok (c :: ds)
          | .error _ => .error ()
        else
          match digitBody (c2 :: rest) with
          | .ok ds => .ok (c :: ds)
          | .error _ => .error ()
      else .error ()

/-- Python `int(s)` on a string: optional surrounding whitespace, optional
sign, then a nonempty digit body; raises `ValueError` (here `.error`) otherwise. -/
def pyInt (s : List Char) : Except Unit Int :=
  match (s.dropWhile isPySpace).reverse.dropWhile isPySpace |>.reverse with
  | [] => .error ()
  | c :: rest =>
      if c = '-' then
        match digitBody rest with
        | .ok ds => .ok (-(digitsToNat ds : Int))
        | .error _ => .error ()
      else if c = '+' then
        match digitBody rest with
        | .ok ds => .ok (digitsToNat ds : Int)
        | .error _ => .error ()
      else
        match digitBody (c :: rest) with
        | .ok ds => .ok (digitsToNat ds : Int)
        | .error _ => .error ()

/-- Python `s.split(":")` on the character list: splits at every colon, keeping empty pieces
(`"".split(":") = [""]`, `"a:b".split(":") = ["a","b"]`). -/
def splitOnColon : List Char → List (List Char)
  | [] => [[]]
  | c :: rest =>
      if c = ':' then [] :: splitOnColon rest
      else
        match splitOnColon rest with
        | [] => [[c]]
        | p :: ps => (c :: p) :: ps

/-- A `datetime.time` value as built in `add_button_action`. -/
structure Time where
  hour : Int
  minute : Int
  deriving DecidableEq, Repr

/-- A `datetime.date` value as built in `add_button_action`. -/
structure Date where
  year : Int
  month : Int
  day : Int
  deriving DecidableEq, Repr

/-- Leap year test of the Gregorian calendar (`calendar.isleap`). -/
def isLeap (y : Int) : Bool :=
  y % 4 = 0 ∧ (y % 100 ≠ 0 ∨ y % 400 = 0)

/-- Number of days in a month, as `datetime.date` validates. -/
def daysInMonth (y m : Int) : Int :=
  if m = 2 then (if isLeap y then 29 else 28)
  else if m = 4 ∨ m = 6 ∨ m = 9 ∨ m = 11 then 30
  else 31

/-- The (y, m, d) triples `datetime.date(y, m, d)` accepts. -/
def isValidDate (y m d : Int) : Bool :=
  1 ≤ y ∧ y ≤ 9999 ∧ 1 ≤ m ∧ m ≤ 12 ∧ 1 ≤ d ∧ d ≤ daysInMonth y m

/-- The (hour, minute) pairs `datetime.time(hour, minute)` accepts. -/
def isValidTime (h mi : Int) : Bool :=
  0 ≤ h ∧ h ≤ 23 ∧ 0 ≤ mi ∧ mi ≤ 59

/-- Embeds `date(int(year), int(month), int(day))` of `add_button_action`:
each component through `int()`, then `datetime.date` construction,
any failure raising `ValueError`. -/
def parseDate (ys ms ds : List Char) : Except Unit Date := do
  let y ← pyInt ys
  let m ← pyInt ms
  let d ← pyInt ds
  if isValidDate y m d then pure ⟨y, m, d⟩ else .error ()

/-- Embeds `time(hour=int(s.split(":")[0]), minute=int(s.split(":")[1]))` of
`add_button_action`: the colon split must have a second piece (index 1),
both pieces go through `int()`, and `datetime.time` checks the ranges. -/
def parseTime (s : List Char) : Except Unit Time := do
  match splitOnColon s with
  | p0 :: p1 :: _ => do
      let h ← pyInt p0
      let mi ← pyInt p1
      if isValidTime h mi then pure ⟨h, mi⟩ else .error ()
  | _ => .error ()

/-- Days before the first of month `m` in a non-leap year
(CPython's `_DAYS_BEFORE_MONTH` table). -/
def daysBeforeMonth (m : Int) : Int :=
  if m ≤ 1 then 0
  else if m = 2 then 31
  else if m = 3 then 59
  else if m = 4 then 90
  else if m = 5 then 120
  else if m = 6 then 151
  else if m = 7 then 181
  else if m = 8 then 212
  else if m = 9 then 243
  else if m = 10 then 273
  else if m = 11 then 304
  else 334

/-- Python `date.toordinal()`: day number of the proleptic Gregorian calendar,
with 0001-01-01 as day 1. -/
def dateOrdinal (dt : Date) : Int :=
  let py := dt.year - 1
  365 * py + py / 4 - py / 100 + py / 400
    + daysBeforeMonth dt.month
    + (if 2 < dt.month ∧ isLeap dt.year then 1 else 0)
    + dt.day

/-- Seconds into the day of a `datetime.time` (seconds field is 0 here). -/
def timeSeconds (t : Time) : Int :=
  t.hour * 3600 + t.minute * 60

/-- Python `datetime.combine(date, time)` as an absolute count of seconds. -/
def combineSeconds (dt : Date) (t : Time) : Int :=
  dateOrdinal dt * 86400 + timeSeconds t

/-- The `seconds` attribute of a Python `timedelta` of `delta` total seconds:
normalisation puts `0 <= seconds < 86400` (the sign goes into `days`). -/
def tdSeconds (delta : Int) : Int :=
  delta % 86400

/-- Python `round(x, 2)` of `add_button_action`, on the exact rational value:
nearest multiple of 1/100 (no tie is ever reached from whole minutes). -/
def round2 (q : ℚ) : ℚ :=
  (⌊q * 100 + 1 / 2⌋ : ℚ) / 100

/-- Lines 537–539 of main.py: `no_of_hours` is
`round((datetime.combine(date, end) - datetime.combine(date, start)).seconds / 3600, 2)`. -/
def computeDuration (dt : Date) (startT endT : Time) : ℚ :=
  let delta := combineSeconds dt endT - combineSeconds dt startT
  round2 ((tdSeconds delta : ℚ) / 3600)

/-! ## The Record Store (manager.py)

The two CSV files are modelled by their row lists, in file order. Every
`FileManager` method re-reads the file and rewrites it whole; here the list
passed in stands for the file contents read, and the list returned stands
for the contents written back. -/

/-- One row of users_db.csv: columns `Name`, `Surname`, `User id`. -/
structure UserRow where
  name : String
  surname : String
  userId : String
  deriving DecidableEq, Repr

/-- One row of shift_db.csv: columns `User id`, `Date`, `Start time`,
`End time`, `No of hours`. -/
structure ShiftRow where
  userId : String
  date : Date
  startTime : Time
  endTime : Time
  noOfHours : ℚ
  deriving DecidableEq, Repr

/-- Embeds `FileManager.check_if_userid_exists`: builds the `User id` column as a
list and tests exact membership of `userid` (case- and whitespace-sensitive). -/
def check_if_userid_exists (users : List UserRow) (userid : String) : Bool :=
  decide (userid ∈ users.map (fun r => r.userId))

/-- Embeds `FileManager.save_to_userList`: appends the new row and rewrites the
whole Users table. -/
def save_to_userList (users : List UserRow) (name surname userid : String) :
    List UserRow :=
  users ++ [⟨name, surname, userid⟩]

/-- Embeds `FileManager.updated_shift_db`: the passed dataframe becomes the new
file contents wholesale. -/
def updated_shift_db (df : List ShiftRow) : List ShiftRow :=
  df

/-- Embeds `FileManager.add_entry_to_shift_db`: appends the new shift row to the
freshly read table and rewrites it via `updated_shift_db`. -/
def add_entry_to_shift_db (table : List ShiftRow) (r : ShiftRow) :
    List ShiftRow :=
  updated_shift_db (table ++ [r])

/-- Embeds `FileManager.get_user_specific_entry`: re-reads the Shift table and keeps
the rows whose first column (`User id`, `row[1]` in `itertuples`) equals
`userid`, preserving file order. -/
def get_user_specific_entry (table : List ShiftRow) (userid : String) :
    List ShiftRow :=
  table.filter (fun row => userid = row.userId)

/-! ## LoginView.create_user (main.py lines 221–242) -/

/-- Outcome shown by `LoginView.create_user`: the three messages it can set. -/
inductive CreateUserResult where
  | emptyField
  | duplicateId
  | created
  deriving DecidableEq, Repr

/-- Embeds `LoginView.create_user`: rejects when a box is empty, then when the id is
already taken, and otherwise saves; returns the outcome with the Users table
as left on disk. -/
def create_user (users : List UserRow) (name surname userid : String) :
    CreateUserResult × List UserRow :=
  if name = "" ∨ surname = "" ∨ userid = "" then
    (.emptyField, users)
  else if check_if_userid_exists users userid then
    (.duplicateId, users)
  else
    (.created, save_to_userList users name surname userid)

/-! ## AddWindow.add_button_action (main.py lines 515–556)

Inside the `try` block the date is parsed, then the start time, then the end
time, then the duration is derived, and only then is
`add_entry_to_shift_db` called; `ValueError`/`TypeError` jump to the
`except` arms, leaving the file untouched (an uncaught `IndexError` from a
missing `":"` also aborts before any write). -/

/-- Embeds `AddWindow.add_button_action`: returns the record
added (if any) together with the Shift table as left on disk. -/
def add_button_action (ys ms ds fromS toS : List Char) (userid : String)
    (table : List ShiftRow) : Option ShiftRow × List ShiftRow :=
  match parseDate ys ms ds with
  | .error _ => (none, table)
  | .ok dt =>
    match parseTime fromS with
    | .error _ => (none, table)
    | .ok startT =>
      match parseTime toS with
      | .error _ => (none, table)
      | .ok endT =>
        let hrs := computeDuration dt startT endT
        let r : ShiftRow := ⟨userid, dt, startT, endT, hrs⟩
        (some r, add_entry_to_shift_db table r)

/-! ## HomeView deletion path (main.py lines 271–378)

`HomeView.__init__` snapshots the Shift table into `self.shift_db` (a
dataframe whose row labels are 0, 1, …); rows are later dropped from that
snapshot by label. `delete_selected_entry` drops the selected label inside
a `try` that swallows `IndexError` (nothing selected) and `KeyError`
(label absent), and then — unconditionally, outside the `try` — writes
`self.shift_db` over the file with `updated_shift_db`. -/

/-- The in-memory dataframe of `HomeView`: rows with their pandas labels. -/
abbrev LabeledTable := List (Nat × ShiftRow)

/-- Embeds `HomeView.__init__` loading shift_db.csv: labels are positions 0, 1, …. -/
def loadView (file : List ShiftRow) : LabeledTable :=
  file.enum

/-- Pandas `DataFrame.drop(label)`: removes the row(s) with that label (labels here
are unique; a missing label raises `KeyError`, which the caller swallows,
leaving the table as it was — exactly what the filter does). -/
def dropLabel (mem : LabeledTable) (lbl : Nat) : LabeledTable :=
  mem.filter (fun p => p.1 ≠ lbl)

/-- Embeds `HomeView.delete_selected_entry`: `sel` is the selected tree item
(`none` when the selection is empty, raising the swallowed `IndexError`).
Returns the new in-memory table and the Shift file contents written by the
unconditional `updated_shift_db` call; the previous file contents `_file`
are overwritten without being consulted. -/
def delete_selected_entry (mem : LabeledTable) (sel : Option Nat)
    (_file : List ShiftRow) : LabeledTable × List ShiftRow :=
  let mem' := match sel with
    | none => mem
    | some lbl => dropLabel mem lbl
  (mem', updated_shift_db (mem'.map (fun p => p.2)))

/-- Spec-side duration (§8, §GLOSSARY): `(end − start)` expressed in hours,
rounded to 2 decimal places, the times read as minutes of the day. -/
def durationSpecHours (startT endT : Time) : ℚ :=
  round2 ((((endT.hour * 60 + endT.minute) - (startT.hour * 60 + startT.minute) : Int) : ℚ) / 60)

/-! ## Theorems -/

/-- Claim C3: registering a fresh (name, surname, id) triple and then asking
`check_if_userid_exists` for that id returns true; the lookup is an exact
(case- and whitespace-sensitive) match on the stored `User id` column. -/
theorem register_then_exists (users : List UserRow) (name surname userid : String)
    (_hfresh : check_if_userid_exists users userid = false) :
    check_if_userid_exists (save_to_userList users name surname userid) userid = true := by
  simp [check_if_userid_exists, save_to_userList]

/-- Witness for C3 at a concrete fresh id. -/
theorem register_then_exists_witness :
    check_if_userid_exists [] "u1" = false ∧
      check_if_userid_exists (save_to_userList [] "Ann" "Lee" "u1") "u1" = true :=
  ⟨rfl, register_then_exists [] "Ann" "Lee" "u1" rfl⟩

/-- Claim C4: when the id is already registered, `create_user` takes the
duplicate branch — the message for a duplicate id is shown — and leaves the
Users table exactly as it was (in particular its row count is unchanged). -/
theorem duplicate_id_rejected (users : List UserRow) (name surname userid : String)
    (hn : name ≠ "") (hs : surname ≠ "") (hu : userid ≠ "")
    (hdup : check_if_userid_exists users userid = true) :
    create_user users name surname userid = (CreateUserResult.duplicateId, users) := by
  simp [create_user, hn, hs, hu, hdup]

/-- Witness for C4 at a concrete registered id. -/
theorem duplicate_id_rejected_witness :
    ("Bob" : String) ≠ "" ∧ ("Roy" : String) ≠ "" ∧ ("u1" : String) ≠ "" ∧
      check_if_userid_exists [⟨"Ann", "Lee", "u1"⟩] "u1" = true ∧
      create_user [⟨"Ann", "Lee", "u1"⟩] "Bob" "Roy" "u1"
        = (CreateUserResult.duplicateId, [⟨"Ann", "Lee", "u1"⟩]) :=
  ⟨by decide, by decide, by decide, by decide,
    duplicate_id_rejected [⟨"Ann", "Lee", "u1"⟩] "Bob" "Roy" "u1"
      (by decide) (by decide) (by decide) (by decide)⟩

/-- Claim C5: adding a shift row and listing that user's rows returns the
previous listing with exactly the added record appended, all fields equal —
in particular the added record is contained in the result. -/
theorem add_then_list_roundtrip (table : List ShiftRow) (r : ShiftRow) :
    get_user_specific_entry (add_entry_to_shift_db table r) r.userId
      = get_user_specific_entry table r.userId ++ [r] := by
  simp [get_user_specific_entry, add_entry_to_shift_db, updated_shift_db,
    List.filter_append]

/-- Claim C7: whenever any of the validation steps of `add_button_action`
fails (no record is produced), the Shift table on disk is left exactly as it
was: validation runs entirely before `add_entry_to_shift_db` is called. -/
theorem validation_failure_no_write (ys ms ds fromS toS : List Char)
    (uid : String) (table : List ShiftRow)
    (hfail : (add_button_action ys ms ds fromS toS uid table).1 = none) :
    (add_button_action ys ms ds fromS toS uid table).2 = table := by
  rcases hd : parseDate ys ms ds with e | dt
  · simp [add_button_action, hd]
  · rcases hsT : parseTime fromS with e | startT
    · simp [add_button_action, hd, hsT]
    · rcases heT : parseTime toS with e | endT
      · simp [add_button_action, hd, hsT, heT]
      · exfalso
        simp [add_button_action, hd, hsT, heT] at hfail

/-- Witness for C7 at a concrete failing input (empty year box). -/
theorem validation_failure_no_write_witness :
    (add_button_action [] ("3".toList) ("1".toList) ("9:00".toList) ("17:30".toList) "u"
        [⟨"u", ⟨2024, 3, 1⟩, ⟨9, 0⟩, ⟨17, 30⟩, 8⟩]).1 = none ∧
      (add_button_action [] ("3".toList) ("1".toList) ("9:00".toList) ("17:30".toList) "u"
        [⟨"u", ⟨2024, 3, 1⟩, ⟨9, 0⟩, ⟨17, 30⟩, 8⟩]).2
        = [⟨"u", ⟨2024, 3, 1⟩, ⟨9, 0⟩, ⟨17, 30⟩, 8⟩] :=
  ⟨rfl, validation_failure_no_write [] ("3".toList) ("1".toList) ("9:00".toList)
    ("17:30".toList) "u" [⟨"u", ⟨2024, 3, 1⟩, ⟨9, 0⟩, ⟨17, 30⟩, 8⟩] rfl⟩

/-- Claim C8: parsing the time string "25:00" fails (`datetime.time` rejects
hour 25), and an add whose start box holds "25:00" never touches the Shift
table, whatever the other boxes hold. -/
theorem hour_25_rejected :
    parseTime ("25:00".toList) = Except.error () ∧
      ∀ (ys ms ds toS : List Char) (uid : String) (table : List ShiftRow),
        (add_button_action ys ms ds ("25:00".toList) toS uid table).2 = table := by
  have h25 : parseTime ("25:00".toList) = Except.error () := rfl
  refine ⟨h25, fun ys ms ds toS uid table => ?_⟩
  rcases hd : parseDate ys ms ds with e | dt
  · simp [add_button_action, hd]
  · have h25' : parseTime ['2', '5', ':', '0', '0'] = Except.error () := rfl
    simp [add_button_action, hd, h25']

/-- Claim C9: `delete_selected_entry` always rewrites the Shift file with the
view's in-memory table (the snapshot minus rows dropped through the view),
ignoring the file's current contents — also when the deletion failed because
nothing was selected — so any row absent from the snapshot, such as one
appended to the file after the snapshot was taken, is wiped from the file. -/
theorem delete_overwrites_with_snapshot (mem : LabeledTable) (sel : Option Nat)
    (fileOld : List ShiftRow) (r : ShiftRow)
    (hr : r ∉ mem.map (fun p => p.2)) :
    (delete_selected_entry mem sel fileOld).2
        = ((delete_selected_entry mem sel fileOld).1).map (fun p => p.2)
      ∧ delete_selected_entry mem none fileOld = (mem, mem.map (fun p => p.2))
      ∧ r ∉ (delete_selected_entry mem sel fileOld).2 := by
  refine ⟨rfl, rfl, ?_⟩
  intro hmem
  apply hr
  rcases sel with _ | lbl
  · exact hmem
  · simp only [delete_selected_entry, updated_shift_db, dropLabel,
      List.mem_map] at hmem ⊢
    obtain ⟨p, hp, hpr⟩ := hmem
    exact ⟨p, (List.mem_filter.mp hp).1, hpr⟩

/-- Witness for C9: a row appended to the file after the snapshot is erased
by a delete click that failed for want of a selection. -/
theorem delete_overwrites_with_snapshot_witness :
    (⟨"v", ⟨2024, 3, 2⟩, ⟨8, 0⟩, ⟨12, 0⟩, 4⟩ : ShiftRow)
        ∉ ([(0, ⟨"u", ⟨2024, 3, 1⟩, ⟨9, 0⟩, ⟨17, 30⟩, 8⟩)] : LabeledTable).map (fun p => p.2) ∧
      (⟨"v", ⟨2024, 3, 2⟩, ⟨8, 0⟩, ⟨12, 0⟩, 4⟩ : ShiftRow)
        ∉ (delete_selected_entry [(0, ⟨"u", ⟨2024, 3, 1⟩, ⟨9, 0⟩, ⟨17, 30⟩, 8⟩)] none
            [⟨"u", ⟨2024, 3, 1⟩, ⟨9, 0⟩, ⟨17, 30⟩, 8⟩,
             ⟨"v", ⟨2024, 3, 2⟩, ⟨8, 0⟩, ⟨12, 0⟩, 4⟩]).2 := by
  have hnot : (⟨"v", ⟨2024, 3, 2⟩, ⟨8, 0⟩, ⟨12, 0⟩, 4⟩ : ShiftRow)
      ∉ ([(0, ⟨"u", ⟨2024, 3, 1⟩, ⟨9, 0⟩, ⟨17, 30⟩, 8⟩)] : LabeledTable).map (fun p => p.2) := by
    simp
  exact ⟨hnot,
    (delete_overwrites_with_snapshot [(0, ⟨"u", ⟨2024, 3, 1⟩, ⟨9, 0⟩, ⟨17, 30⟩, 8⟩)] none
      [⟨"u", ⟨2024, 3, 1⟩, ⟨9, 0⟩, ⟨17, 30⟩, 8⟩,
       ⟨"v", ⟨2024, 3, 2⟩, ⟨8, 0⟩, ⟨12, 0⟩, 4⟩]
      ⟨"v", ⟨2024, 3, 2⟩, ⟨8, 0⟩, ⟨12, 0⟩, 4⟩ hnot).2.2⟩

/-- Bounds packed in `isValidTime`, unpacked for arithmetic. -/
theorem isValidTime_bounds {h mi : Int} (hv : isValidTime h mi = true) :
    0 ≤ h ∧ h ≤ 23 ∧ 0 ≤ mi ∧ mi ≤ 59 := by
  simpa [isValidTime] using hv

/-- The date cancels out of the `datetime.combine` subtraction. -/
theorem combine_sub (dt : Date) (s e : Time) :
    combineSeconds dt e - combineSeconds dt s = timeSeconds e - timeSeconds s := by
  unfold combineSeconds
  ring

/-- Claim C1: with a valid date and valid times, end after start on the same
day, the computed `no_of_hours` equals the spec's `(end − start)` in hours
rounded to 2 decimals; in particular 2024-03-01, 09:00 → 17:30 gives 8.5. -/
theorem duration_matches_spec (y m d : Int) (s e : Time)
    (_hvd : isValidDate y m d = true)
    (hvs : isValidTime s.hour s.minute = true)
    (hve : isValidTime e.hour e.minute = true)
    (hlt : timeSeconds s < timeSeconds e) :
    computeDuration ⟨y, m, d⟩ s e = durationSpecHours s e
      ∧ computeDuration ⟨2024, 3, 1⟩ ⟨9, 0⟩ ⟨17, 30⟩ = 8.5 := by
  constructor
  · obtain ⟨hs1, hs2, hs3, hs4⟩ := isValidTime_bounds hvs
    obtain ⟨he1, he2, he3, he4⟩ := isValidTime_bounds hve
    have hmod : tdSeconds (timeSeconds e - timeSeconds s)
        = timeSeconds e - timeSeconds s := by
      simp only [tdSeconds, timeSeconds] at *
      omega
    simp only [computeDuration, combine_sub, hmod, durationSpecHours]
    congr 1
    simp only [timeSeconds]
    push_cast
    ring
  · norm_num [computeDuration, round2, tdSeconds, combineSeconds, dateOrdinal,
      timeSeconds, daysBeforeMonth, isLeap]

/-- Witness for C1 at 2024-03-01, 09:00 → 17:30. -/
theorem duration_matches_spec_witness :
    isValidDate 2024 3 1 = true ∧ isValidTime 9 0 = true ∧ isValidTime 17 30 = true ∧
      timeSeconds ⟨9, 0⟩ < timeSeconds ⟨17, 30⟩ ∧
      (computeDuration ⟨2024, 3, 1⟩ ⟨9, 0⟩ ⟨17, 30⟩ = durationSpecHours ⟨9, 0⟩ ⟨17, 30⟩
        ∧ computeDuration ⟨2024, 3, 1⟩ ⟨9, 0⟩ ⟨17, 30⟩ = 8.5) :=
  ⟨by decide, by decide, by decide, by decide,
    duration_matches_spec 2024 3 1 ⟨9, 0⟩ ⟨17, 30⟩ (by decide) (by decide) (by decide)
      (by decide)⟩

/-- Counterexample to C2 as stated: on 2024-03-01 with start 17:00 and end
09:00 — a valid date, valid times, end earlier than start — the source
computes `round(timedelta.seconds / 3600, 2) = 16`, which is not negative:
`timedelta` normalisation folds the sign into the `days` field. -/
theorem end_before_start_not_negative :
    isValidDate 2024 3 1 = true ∧ isValidTime 17 0 = true ∧ isValidTime 9 0 = true ∧
      timeSeconds ⟨9, 0⟩ < timeSeconds ⟨17, 0⟩ ∧
      computeDuration ⟨2024, 3, 1⟩ ⟨17, 0⟩ ⟨9, 0⟩ = 16 ∧
      ¬ computeDuration ⟨2024, 3, 1⟩ ⟨17, 0⟩ ⟨9, 0⟩ < 0 := by
  refine ⟨by decide, by decide, by decide, by decide, ?_, ?_⟩ <;>
    norm_num [computeDuration, round2, tdSeconds, combineSeconds, dateOrdinal,
      timeSeconds, daysBeforeMonth, isLeap]

/-- Claim C2 amended: with end earlier than start, the source's duration is
the wrapped value `round((86400 − (start − end)) / 3600, 2)` — the shift is
treated as running into the next day — and it is strictly positive, never
negative. -/
theorem end_before_start_wraps (y m d : Int) (s e : Time)
    (_hvd : isValidDate y m d = true)
    (hvs : isValidTime s.hour s.minute = true)
    (hve : isValidTime e.hour e.minute = true)
    (hlt : timeSeconds e < timeSeconds s) :
    computeDuration ⟨y, m, d⟩ s e
        = round2 (((86400 + timeSeconds e - timeSeconds s : Int) : ℚ) / 3600)
      ∧ 0 < computeDuration ⟨y, m, d⟩ s e := by
  obtain ⟨hs1, hs2, hs3, hs4⟩ := isValidTime_bounds hvs
  obtain ⟨he1, he2, he3, he4⟩ := isValidTime_bounds hve
  have hmod : tdSeconds (timeSeconds e - timeSeconds s)
      = 86400 + timeSeconds e - timeSeconds s := by
    simp only [tdSeconds, timeSeconds] at *
    omega
  have heq : computeDuration ⟨y, m, d⟩ s e
      = round2 (((86400 + timeSeconds e - timeSeconds s : Int) : ℚ) / 3600) := by
    simp only [computeDuration, combine_sub, hmod]
  refine ⟨heq, ?_⟩
  rw [heq]
  have hge : (60 : Int) ≤ 86400 + timeSeconds e - timeSeconds s := by
    simp only [timeSeconds] at *
    omega
  have hq : (1 / 60 : ℚ) ≤ ((86400 + timeSeconds e - timeSeconds s : Int) : ℚ) / 3600 := by
    rw [le_div_iff₀ (by norm_num : (0 : ℚ) < 3600)]
    calc (1 / 60 : ℚ) * 3600 = ((60 : Int) : ℚ) := by norm_num
    _ ≤ ((86400 + timeSeconds e - timeSeconds s : Int) : ℚ) := by exact_mod_cast hge
  have hfl : (2 : ℤ) ≤ ⌊((86400 + timeSeconds e - timeSeconds s : Int) : ℚ) / 3600 * 100 + 1 / 2⌋ := by
    apply Int.le_floor.mpr
    have : (1 / 60 : ℚ) * 100 + 1 / 2 ≤ ((86400 + timeSeconds e - timeSeconds s : Int) : ℚ) / 3600 * 100 + 1 / 2 := by
      have h100 : (0 : ℚ) ≤ 100 := by norm_num
      nlinarith [hq]
    calc ((2 : ℤ) : ℚ) ≤ (1 / 60 : ℚ) * 100 + 1 / 2 := by norm_num
    _ ≤ _ := this
  unfold round2
  apply div_pos _ (by norm_num : (0 : ℚ) < 100)
  exact_mod_cast lt_of_lt_of_le (by norm_num : (0 : ℤ) < 2) hfl

/-- Witness for the amended C2 at 2024-03-01, start 23:30 and end 00:15:
the wrapped duration is `round(2700 / 3600, 2) = 0.75 > 0`. -/
theorem end_before_start_wraps_witness :
    isValidDate 2024 3 1 = true ∧ isValidTime 23 30 = true ∧ isValidTime 0 15 = true ∧
      timeSeconds ⟨0, 15⟩ < timeSeconds ⟨23, 30⟩ ∧
      (computeDuration ⟨2024, 3, 1⟩ ⟨23, 30⟩ ⟨0, 15⟩
          = round2 (((86400 + timeSeconds ⟨0, 15⟩ - timeSeconds ⟨23, 30⟩ : Int) : ℚ) / 3600)
        ∧ 0 < computeDuration ⟨2024, 3, 1⟩ ⟨23, 30⟩ ⟨0, 15⟩) :=
  ⟨by decide, by decide, by decide, by decide,
    end_before_start_wraps 2024 3 1 ⟨23, 30⟩ ⟨0, 15⟩ (by decide) (by decide) (by decide)
      (by decide)⟩

/-- Counterexample to C6 as stated: with two identical rows for user "u",
dropping the one at index 0 and rewriting via `updated_shift_db` leaves a
listing that still contains the removed record — "no longer contains" fails
on tables with duplicate rows. -/
theorem delete_duplicate_row_still_listed :
    get_user_specific_entry (updated_shift_db
        (([⟨"u", ⟨2024, 3, 1⟩, ⟨9, 0⟩, ⟨17, 30⟩, 8.5⟩,
           ⟨"u", ⟨2024, 3, 1⟩, ⟨9, 0⟩, ⟨17, 30⟩, 8.5⟩] : List ShiftRow).eraseIdx 0)) "u"
      = [⟨"u", ⟨2024, 3, 1⟩, ⟨9, 0⟩, ⟨17, 30⟩, 8.5⟩]
    ∧ (⟨"u", ⟨2024, 3, 1⟩, ⟨9, 0⟩, ⟨17, 30⟩, 8.5⟩ : ShiftRow)
        ∈ get_user_specific_entry (updated_shift_db
            (([⟨"u", ⟨2024, 3, 1⟩, ⟨9, 0⟩, ⟨17, 30⟩, 8.5⟩,
               ⟨"u", ⟨2024, 3, 1⟩, ⟨9, 0⟩, ⟨17, 30⟩, 8.5⟩] : List ShiftRow).eraseIdx 0)) "u" := by
  constructor
  · rfl
  · simp [get_user_specific_entry, updated_shift_db]

/-- Inserting a row in the middle raises its count among its user's rows by one. -/
theorem count_middle (A B : List ShiftRow) (r : ShiftRow) :
    (get_user_specific_entry (A ++ B) r.userId).count r + 1
      = (get_user_specific_entry (A ++ r :: B) r.userId).count r := by
  simp only [get_user_specific_entry, List.filter_append, List.count_append,
    List.filter_cons, decide_eq_true_eq]
  rw [if_pos trivial]
  rw [List.count_cons_self]
  omega

/-- Inserting a row of another user in the middle leaves a user's rows alone. -/
theorem frame_middle (A B : List ShiftRow) (r : ShiftRow) (uid : String)
    (huid : uid ≠ r.userId) :
    get_user_specific_entry (A ++ B) uid = get_user_specific_entry (A ++ r :: B) uid := by
  simp only [get_user_specific_entry, List.filter_append, List.filter_cons,
    decide_eq_true_eq]
  rw [if_neg huid]

/-- Claim C6 amended: dropping the row at index `i` and rewriting via
`updated_shift_db` removes exactly one occurrence of that row from its
user's listing (so the row disappears whenever it was not duplicated), and
every other user's listing is unchanged. -/
theorem delete_row_removes_one_occurrence (t : List ShiftRow) (i : Nat)
    (h : i < t.length) :
    (get_user_specific_entry (updated_shift_db (t.eraseIdx i))
          (t.get ⟨i, h⟩).userId).count (t.get ⟨i, h⟩) + 1
        = (get_user_specific_entry t (t.get ⟨i, h⟩).userId).count (t.get ⟨i, h⟩)
      ∧ ∀ uid, uid ≠ (t.get ⟨i, h⟩).userId →
          get_user_specific_entry (updated_shift_db (t.eraseIdx i)) uid
            = get_user_specific_entry t uid := by
  simp only [List.get_eq_getElem]
  have hdrop : t.drop i = t[i] :: t.drop (i + 1) := List.drop_eq_getElem_cons h
  have ht : t = t.take i ++ t[i] :: t.drop (i + 1) := by
    conv_lhs => rw [← List.take_append_drop i t]
    rw [hdrop]
  have herase : t.eraseIdx i = t.take i ++ t.drop (i + 1) :=
    List.eraseIdx_eq_take_drop_succ t i
  constructor
  · have hcount := count_middle (t.take i) (t.drop (i + 1)) t[i]
    rw [← ht, ← herase] at hcount
    simpa [updated_shift_db] using hcount
  · intro uid huid
    have hframe := frame_middle (t.take i) (t.drop (i + 1)) t[i] uid huid
    rw [← ht, ← herase] at hframe
    simpa [updated_shift_db] using hframe

/-- Witness for the amended C6 on a one-row table. -/
theorem delete_row_removes_one_occurrence_witness :
    (0 : Nat) < ([⟨"u", ⟨2024, 3, 1⟩, ⟨9, 0⟩, ⟨17, 30⟩, 8⟩] : List ShiftRow).length ∧
      ((get_user_specific_entry (updated_shift_db
            (([⟨"u", ⟨2024, 3, 1⟩, ⟨9, 0⟩, ⟨17, 30⟩, 8⟩] : List ShiftRow).eraseIdx 0)) "u").count
            ⟨"u", ⟨2024, 3, 1⟩, ⟨9, 0⟩, ⟨17, 30⟩, 8⟩ + 1
          = (get_user_specific_entry [⟨"u", ⟨2024, 3, 1⟩, ⟨9, 0⟩, ⟨17, 30⟩, 8⟩] "u").count
              ⟨"u", ⟨2024, 3, 1⟩, ⟨9, 0⟩, ⟨17, 30⟩, 8⟩
        ∧ ∀ uid, uid ≠ "u" →
            get_user_specific_entry (updated_shift_db
                (([⟨"u", ⟨2024, 3, 1⟩, ⟨9, 0⟩, ⟨17, 30⟩, 8⟩] : List ShiftRow).eraseIdx 0)) uid
              = get_user_specific_entry [⟨"u", ⟨2024, 3, 1⟩, ⟨9, 0⟩, ⟨17, 30⟩, 8⟩] uid) :=
  ⟨Nat.zero_lt_succ 0,
    delete_row_removes_one_occurrence [⟨"u", ⟨2024, 3, 1⟩, ⟨9, 0⟩, ⟨17, 30⟩, 8⟩] 0
      (Nat.zero_lt_succ 0)⟩

/-- A decimal digit character is none of the characters special to `int()`
or the colon split. -/
theorem digit_ne_special {c : Char} (hc : c.isDigit = true) :
    isPySpace c = false ∧ c ≠ '_' ∧ c ≠ '-' ∧ c ≠ '+' ∧ c ≠ ':' := by
  have h1 : c ≠ ' ' := fun e => absurd (e ▸ hc) (by decide)
  have h2 : c ≠ '\t' := fun e => absurd (e ▸ hc) (by decide)
  have h3 : c ≠ '\n' := fun e => absurd (e ▸ hc) (by decide)
  have h4 : c ≠ '\r' := fun e => absurd (e ▸ hc) (by decide)
  have h5 : c ≠ '\x0b' := fun e => absurd (e ▸ hc) (by decide)
  have h6 : c ≠ '\x0c' := fun e => absurd (e ▸ hc) (by decide)
  refine ⟨by simp [isPySpace, h1, h2, h3, h4, h5, h6], ?_, ?_, ?_, ?_⟩
  · exact fun e => absurd (e ▸ hc) (by decide)
  · exact fun e => absurd (e ▸ hc) (by decide)
  · exact fun e => absurd (e ▸ hc) (by decide)
  · exact fun e => absurd (e ▸ hc) (by decide)

/-- Python `str.split(":")` puts everything before the first colon in the first piece. -/
theorem splitOnColon_append (l r : List Char) (h : ':' ∉ l) :
    splitOnColon (l ++ ':' :: r) = l :: splitOnColon r := by
  induction l with
  | nil => simp [splitOnColon]
  | cons c rest ih =>
    have hc : c ≠ ':' := fun e => h (e ▸ List.mem_cons_self c rest)
    have hrest : ':' ∉ rest := fun hm => h (List.mem_cons_of_mem c hm)
    simp only [List.cons_append, splitOnColon, if_neg hc, List.append_eq, ih hrest]

/-- A colon-free string splits into itself alone. -/
theorem splitOnColon_no_colon (l : List Char) (h : ':' ∉ l) :
    splitOnColon l = [l] := by
  induction l with
  | nil => rfl
  | cons c rest ih =>
    have hc : c ≠ ':' := fun e => h (e ▸ List.mem_cons_self c rest)
    have hrest : ':' ∉ rest := fun hm => h (List.mem_cons_of_mem c hm)
    simp only [splitOnColon, if_neg hc, ih hrest]

/-- On a nonempty all-digit string the digit-body scan accepts it whole. -/
theorem digitBody_all_digits (l : List Char) (h1 : l ≠ [])
    (h2 : ∀ c ∈ l, c.isDigit = true) : digitBody l = .ok l := by
  induction l with
  | nil => cases h1 rfl
  | cons c rest ih =>
    have hc : c.isDigit = true := h2 c (List.mem_cons_self c rest)
    cases rest with
    | nil => simp [digitBody, hc]
    | cons c2 rest2 =>
      have hc2 : c2.isDigit = true := h2 c2 (by simp)
      have hne : c2 ≠ '_' := (digit_ne_special hc2).2.1
      have hrec := ih (by simp) (fun x hx => h2 x (List.mem_cons_of_mem c hx))
      simp only [digitBody, if_pos hc, if_neg hne, hrec]

/-- Python `int()` on a nonempty all-digit string returns its decimal value. -/
theorem pyInt_all_digits (l : List Char) (h1 : l ≠ [])
    (h2 : ∀ c ∈ l, c.isDigit = true) : pyInt l = .ok (digitsToNat l : Int) := by
  have hnospace : ∀ c ∈ l, isPySpace c = false :=
    fun c hc => (digit_ne_special (h2 c hc)).1
  have hd1 : l.dropWhile isPySpace = l := by
    cases l with
    | nil => rfl
    | cons c rest => simp [List.dropWhile_cons, hnospace c (List.mem_cons_self c rest)]
  have hd2 : l.reverse.dropWhile isPySpace = l.reverse := by
    cases hrev : l.reverse with
    | nil => rfl
    | cons c rest =>
      have hc : c ∈ l := by
        rw [← List.mem_reverse, hrev]
        exact List.mem_cons_self c rest
      simp [List.dropWhile_cons, hnospace c hc]
  cases l with
  | nil => cases h1 rfl
  | cons c rest =>
    have hc : c.isDigit = true := h2 c (List.mem_cons_self c rest)
    have hminus : c ≠ '-' := (digit_ne_special hc).2.2.1
    have hplus : c ≠ '+' := (digit_ne_special hc).2.2.2.1
    have hbody := digitBody_all_digits (c :: rest) h1 h2
    simp only [pyInt, hd1, hd2, List.reverse_reverse, if_neg hminus, if_neg hplus,
      hbody]

/-- Claim C10: time fields need not be two digits — any `H:M`-shaped string
(digit hour part, digit minute part, length at most 5) whose hour is in
0–23 and minute in 0–59 parses to exactly that hour and minute. -/
theorem flexible_time_accepted (hrs mins : List Char)
    (h1 : hrs ≠ []) (h2 : mins ≠ [])
    (h3 : ∀ c ∈ hrs, c.isDigit = true) (h4 : ∀ c ∈ mins, c.isDigit = true)
    (_h5 : hrs.length + 1 + mins.length ≤ 5)
    (h6 : digitsToNat hrs ≤ 23) (h7 : digitsToNat mins ≤ 59) :
    parseTime (hrs ++ ':' :: mins)
      = .ok ⟨(digitsToNat hrs : Int), (digitsToNat mins : Int)⟩ := by
  have hnc : ':' ∉ hrs := fun hm => absurd (h3 ':' hm) (by decide)
  have hnc2 : ':' ∉ mins := fun hm => absurd (h4 ':' hm) (by decide)
  have hvalid : isValidTime (digitsToNat hrs : Int) (digitsToNat mins : Int) = true := by
    simp only [isValidTime, decide_eq_true_eq]
    refine ⟨Int.natCast_nonneg _, ?_, Int.natCast_nonneg _, ?_⟩
    · exact_mod_cast h6
    · exact_mod_cast h7
  simp only [parseTime, splitOnColon_append hrs mins hnc,
    splitOnColon_no_colon mins hnc2, pyInt_all_digits hrs h1 h3,
    pyInt_all_digits mins h2 h4, bind, Except.bind, pure, Except.pure]
  rw [if_pos hvalid]

/-- Witness for C10: "9:5" is accepted and denotes 09:05. -/
theorem flexible_time_accepted_witness :
    (['9'] : List Char) ≠ [] ∧ (['5'] : List Char) ≠ [] ∧
      (∀ c ∈ (['9'] : List Char), c.isDigit = true) ∧
      (∀ c ∈ (['5'] : List Char), c.isDigit = true) ∧
      (['9'] : List Char).length + 1 + (['5'] : List Char).length ≤ 5 ∧
      digitsToNat ['9'] ≤ 23 ∧ digitsToNat ['5'] ≤ 59 ∧
      parseTime ("9:5".toList) = .ok ⟨9, 5⟩ :=
  ⟨by decide, by decide, by decide, by decide, by decide, by decide, by decide,
    flexible_time_accepted ['9'] ['5'] (by decide) (by decide) (by decide) (by decide)
      (by decide) (by decide) (by decide)⟩

end ShiftTracker

